import Mathlib

/-!
Verification of the rv-runtime generator (rv-runtime-generator crate).

This file contains a shallow embedding of the generator's data model and of the
algorithms relevant to the stated properties:

* the memory-layout engine (`src/linker.rs`): NAPOT validation, sub-region
  flattening, the NAPOT end-alignment override in `LinkerConfig::new`, and the
  custom-section emission of `LinkerBuilder::add_custom_section`;
* the trap-frame / thread-pointer-block layout resolver (`src/rt.rs`):
  first-match index lookup, byte offsets, and the floating-point extension of
  `RtConfig::new`;
* the assembly builder (`src/rt.rs`): builder state (sentence list, free
  register pool, label map, named registers), the constrained/unconstrained
  immediate emitters, `zero_bss`, `wait_for_bss_init_done`,
  `init_stack_pointer_using_boot_id` and `protect_stack`, together with a small
  evaluator for the straight-line instruction sequences those routines emit.

Rust panics (`assert!`, `unwrap`, `unreachable!`, division by zero) are modelled
by `Option`: `none` is an aborted generation run.  Machine integers are modelled
by `Nat` (for `usize`) and `Int` (for `isize`); the one place where a `usize` is
reinterpreted as an `isize` (`AsmBuilder::li_constrained`) performs the
two's-complement conversion explicitly.
-/

namespace RvGen

/-! ## Target configuration (`src/target_config.rs`) -/

inductive RvMode where
  | MMode
  | SMode
deriving DecidableEq

inductive RvXlen where
  | Rv32
  | Rv64
deriving DecidableEq

/-- `RvXlen::bytes` (the source returns `isize`; the value is 4 or 8). -/
def RvXlen.bytes : RvXlen → Nat
  | .Rv32 => 4
  | .Rv64 => 8

structure HartConfig where
  rv_mode : RvMode
  rv_xlen : RvXlen
  max_hart_count : Nat
  all_harts_start_at_reset_vector : Bool

def HartConfig.multihart_reset_handling_required (hc : HartConfig) : Bool :=
  hc.all_harts_start_at_reset_vector && decide (1 < hc.max_hart_count)

structure MemConfig where
  per_hart_stack_size : Nat
  heap_size : Nat

structure TargetConfig where
  mem_config : MemConfig
  hart_config : HartConfig
  custom_reset_config : Bool

def TargetConfig.max_hart_count (tc : TargetConfig) : Nat :=
  tc.hart_config.max_hart_count

def TargetConfig.per_hart_stack_size (tc : TargetConfig) : Nat :=
  tc.mem_config.per_hart_stack_size

def TargetConfig.heap_size (tc : TargetConfig) : Nat :=
  tc.mem_config.heap_size

def TargetConfig.rv_xlen (tc : TargetConfig) : RvXlen :=
  tc.hart_config.rv_xlen

/-- `TargetConfig::xlen_bytes` returns `isize` in the source. -/
def TargetConfig.xlen_bytes (tc : TargetConfig) : Int :=
  (tc.hart_config.rv_xlen.bytes : Int)

def TargetConfig.is_multi_hart (tc : TargetConfig) : Bool :=
  decide (1 < tc.hart_config.max_hart_count)

def TargetConfig.needs_custom_reset (tc : TargetConfig) : Bool :=
  tc.custom_reset_config

/-! ## Memory layout engine data model (`src/linker.rs`) -/

structure MemoryAttribs where
  read : Bool
  write : Bool
  execute : Bool
  allocated : Bool
  initialized : Bool
deriving DecidableEq

def MemoryAttribs.rw : MemoryAttribs :=
  ⟨true, true, false, false, false⟩

def MemoryAttribs.rx : MemoryAttribs :=
  ⟨true, false, true, false, false⟩

structure SubRegion where
  name : String
  length : Nat
  napot : Bool
deriving DecidableEq

structure MemoryRegion where
  name : String
  base : Nat
  length : Nat
  napot : Bool
  attribs : MemoryAttribs
  sub_regions : List SubRegion

/-- `MemoryRegion::end` (named `endAddr` here because `end` is a Lean keyword). -/
def MemoryRegion.endAddr (r : MemoryRegion) : Nat :=
  r.base + r.length

def is_aligned (val alignment : Nat) : Bool :=
  (val % alignment) == 0

def is_power_of_2 (val : Nat) : Bool :=
  (val &&& (val - 1)) == 0

/-- `check_napot` in the source runs two `assert!`s:
`is_power_of_2(length)` and `is_aligned(base, length)`.  `true` means both
assertions pass.  For `length = 0` the Rust code always aborts: in a debug
build `val - 1` underflows inside `is_power_of_2`, and in a release build
`is_power_of_2(0)` is `true` but `base % 0` inside `is_aligned` panics with a
division by zero.  Either way generation fails, hence the explicit
`length != 0` conjunct. -/
def check_napot (base length : Nat) : Bool :=
  length != 0 && (is_power_of_2 length && is_aligned base length)

/-! ### Sections -/

inductive SectionType where
  | Text
  | Data
  | Rodata
  | Bss
  | Heap
  | Stack
  | Custom (name : String) (size : Nat)
deriving DecidableEq

def SectionType.name : SectionType → String
  | .Text => "text"
  | .Data => "data"
  | .Rodata => "rodata"
  | .Bss => "bss"
  | .Heap => "heap"
  | .Stack => "stack"
  | .Custom n _ => n

def SectionType.section_entry_name (ty : SectionType) : String :=
  "." ++ ty.name

def SectionType.section_entry_start_symbol (ty : SectionType) : String :=
  "_s" ++ ty.name

def SectionType.section_entry_end_symbol (ty : SectionType) : String :=
  "_e" ++ ty.name

structure SubSection where
  input_section : String
  alignment_in_bytes : Nat
  max_size : Option Nat
  mark_as_keep : Bool
deriving DecidableEq

def SubSection.new (input_section_name : String) (alignment_in_bytes : Nat)
    (max_size : Option Nat) : SubSection :=
  ⟨input_section_name, alignment_in_bytes, max_size, false⟩

structure Section where
  ty : SectionType
  start_alignment_in_bytes : Nat
  end_alignment_in_bytes : Nat
  target_memory : String
  subsections : List SubSection
  load_address : Option String
deriving DecidableEq

/-- `Section::new`: the source initializes the end alignment from the same
`alignment_in_bytes` argument as the start alignment. -/
def Section.new (ty : SectionType) (alignment_in_bytes : Nat)
    (target_memory : String) : Section :=
  { ty := ty
    start_alignment_in_bytes := alignment_in_bytes
    end_alignment_in_bytes := alignment_in_bytes
    target_memory := target_memory
    subsections := []
    load_address := none }

def Section.add_subsection (s : Section) (subsection : SubSection) : Section :=
  { s with subsections := s.subsections ++ [subsection] }

/-! ### Memories and region flattening -/

structure Memory where
  name : String
  base : Nat
  length : Nat
  attribs : MemoryAttribs
  /-- `sections: RefCell<Vec<&Section>>` in the source; always created empty by
  `Memory::new` and only filled later during script emission. -/
  sections : List Section
deriving DecidableEq

def Memory.new (name : String) (base length : Nat) (attribs : MemoryAttribs) :
    Memory :=
  ⟨name, base, length, attribs, []⟩

/-- The sub-region walk inside `Memory::from_memory_region`: lays the declared
sub-regions out sequentially from `base`, checking the NAPOT law for NAPOT
sub-regions (which additionally `assert!` a NAPOT parent) and the
`sub_region.length + base <= region.end()` overflow assertion. -/
def flatten_sub_regions (region : MemoryRegion) :
    List SubRegion → Nat → Option (List Memory)
  | [], _ => some []
  | sub_region :: rest, base =>
    if sub_region.napot && !region.napot then
      none
    else if sub_region.napot && !check_napot base sub_region.length then
      none
    else if !(sub_region.length + base ≤ region.endAddr) then
      none
    else
      (flatten_sub_regions region rest (base + sub_region.length)).map
        (fun ms => Memory.new sub_region.name base sub_region.length region.attribs :: ms)

/-- `Memory::from_memory_region`. -/
def Memory.from_memory_region (region : MemoryRegion) : Option (List Memory) :=
  if region.napot && !check_napot region.base region.length then
    none
  else
    (flatten_sub_regions region region.sub_regions region.base).map
      (fun ms => Memory.new region.name region.base region.length region.attribs :: ms)

/-! ### `LinkerConfig::new` -/

inductive StackAlignment where
  | Default
  | Natural
deriving DecidableEq

inductive StackLocation where
  | SeparateSection
  | InBss (a : StackAlignment)
deriving DecidableEq

def StackLocation.is_stack_in_bss : StackLocation → Bool
  | .InBss _ => true
  | .SeparateSection => false

def StackLocation.is_stack_in_separate_section (s : StackLocation) : Bool :=
  !s.is_stack_in_bss

structure Symbol where
  name : String
  value : String

/-- The name used to locate the section whose end alignment is overridden: the
region's own name, or the name of its last sub-region if it has any
(`LinkerConfig::new`, the `region_name` binding). -/
def terminal_region_name (region : MemoryRegion) : String :=
  match region.sub_regions.getLast? with
  | none => region.name
  | some sr => sr.name

/-- The reverse scan inside `LinkerConfig::new`: walk the section list from the
end, set `end_alignment_in_bytes` of the first section whose `target_memory`
equals `region_name`, and stop; the `found_section` assertion (no match at all)
is `none`. -/
def update_last_section (sections : List Section) (region_name : String)
    (length : Nat) : Option (List Section) :=
  match sections with
  | [] => none
  | s :: rest =>
    match update_last_section rest region_name length with
    | some rest' => some (s :: rest')
    | none =>
      if s.target_memory = region_name then
        some ({ s with end_alignment_in_bytes := length } :: rest)
      else
        none

/-- The region loop of `LinkerConfig::new`: flatten every region in order and,
for every NAPOT region that is not the last one (`region_iter.peek()` is
non-empty), apply the end-alignment override to the section list. -/
def process_regions :
    List MemoryRegion → List Section → Option (List Memory × List Section)
  | [], sections => some ([], sections)
  | region :: rest, sections => do
    let ms ← Memory.from_memory_region region
    let sections' ←
      if region.napot && !rest.isEmpty then
        update_last_section sections (terminal_region_name region) region.length
      else
        some sections
    let (ms2, sections'') ← process_regions rest sections'
    some (ms ++ ms2, sections'')

structure LinkerConfig where
  memories : List Memory
  sections : List Section
  stack_location : StackLocation
  target_config : TargetConfig
  symbols : List Symbol

/-- `LinkerConfig::new`: region walk with the NAPOT end-alignment override,
sort of the memories by base address (`sort_by` is a stable sort, modelled by
`mergeSort`), and the "stack section exists" assertion for a separate-section
stack placement. -/
def LinkerConfig.new (memory_regions : List MemoryRegion)
    (sections : List Section) (stack_location : StackLocation)
    (target_config : TargetConfig) : Option LinkerConfig := do
  let (memories, sections) ← process_regions memory_regions sections
  let memories := memories.mergeSort (fun a b => decide (a.base ≤ b.base))
  if stack_location.is_stack_in_separate_section &&
      !(sections.any (fun s => s.ty == SectionType.Stack)) then
    none
  else
    some ⟨memories, sections, stack_location, target_config, []⟩

/-! ### Linker sentences and custom-section emission (`LinkerBuilder`) -/

/-- The `LinkerSentence` variants produced by the emission routines embedded in
this file (`add_custom_section` / `add_subsection_information`). -/
inductive LinkerSentence where
  | OutputSectionStart (name : String) (noload : Bool) (alignment : Nat)
      (load_address : Option String)
  | OutputSectionEnd (target_memory : String)
  | InputSections (sections : String) (keep : Bool)
  | SetToCurrent (symbol : String)
  | AdvanceLocationCounter (size : Nat)
  | Align (alignment : Nat)
  | Assert (cond : String) (error_msg : String)
deriving DecidableEq

/-- `LinkerBuilder::input_section`: the raw input-section match string is
`"{section} {section}.*"`. -/
def input_section (sec : String) (keep : Bool) : LinkerSentence :=
  .InputSections (sec ++ " " ++ sec ++ ".*") keep

/-- The start/end symbol suffix of a subsection: a leading `.` is stripped and
every remaining `.` becomes `_` (`LinkerBuilder::add_subsection_information`). -/
def section_symbol_suffix (ss : SubSection) : String :=
  if ss.input_section.startsWith "." then
    (ss.input_section.drop 1).replace "." "_"
  else
    ss.input_section.replace "." "_"

/-- The sentences emitted for one subsection inside
`LinkerBuilder::add_subsection_information`. -/
def subsection_sentences (ss : SubSection) : List LinkerSentence :=
  [LinkerSentence.Align ss.alignment_in_bytes,
   LinkerSentence.SetToCurrent ("_s" ++ section_symbol_suffix ss),
   input_section ss.input_section ss.mark_as_keep,
   LinkerSentence.Align ss.alignment_in_bytes,
   LinkerSentence.SetToCurrent ("_e" ++ section_symbol_suffix ss)] ++
  (match ss.max_size with
   | some max_size =>
     [LinkerSentence.Assert
       ("_e" ++ section_symbol_suffix ss ++ " - _s" ++ section_symbol_suffix ss
         ++ " <= " ++ toString max_size)
       (ss.input_section ++ " overflowed")]
   | none => [])

/-- `LinkerBuilder::add_subsection_information`. -/
def add_subsection_information (section_info : Section) : List LinkerSentence :=
  section_info.subsections.flatMap subsection_sentences

/-- `LinkerBuilder::add_custom_section`, as the list of sentences it appends:
nothing at all when `size == 0`; otherwise a section block that is `NOLOAD` and
reserves `size` bytes when there are no subsections, and a loadable block
containing only the subsections when there are some. -/
def add_custom_section (section_info : Section) (size : Nat) :
    List LinkerSentence :=
  if size = 0 then
    []
  else
    [LinkerSentence.OutputSectionStart section_info.ty.section_entry_name
       section_info.subsections.isEmpty section_info.start_alignment_in_bytes
       section_info.load_address,
     LinkerSentence.SetToCurrent section_info.ty.section_entry_start_symbol] ++
    (if section_info.subsections.isEmpty then
       [LinkerSentence.AdvanceLocationCounter size]
     else
       add_subsection_information section_info) ++
    [LinkerSentence.Align section_info.end_alignment_in_bytes,
     LinkerSentence.SetToCurrent section_info.ty.section_entry_end_symbol,
     LinkerSentence.OutputSectionEnd section_info.target_memory]

/-! ## Runtime generator data model (`src/rt.rs`) -/

inductive GeneralRegister where
  | Zero | Ra | Sp | Gp | Tp
  | T0 | T1 | T2
  | S0 | S1
  | A0 | A1 | A2 | A3 | A4 | A5 | A6 | A7
  | S2 | S3 | S4 | S5 | S6 | S7 | S8 | S9 | S10 | S11
  | T3 | T4 | T5 | T6
deriving DecidableEq

inductive FloatingPointRegister where
  | F0 | F1 | F2 | F3 | F4 | F5 | F6 | F7
  | F8 | F9 | F10 | F11 | F12 | F13 | F14 | F15
  | F16 | F17 | F18 | F19 | F20 | F21 | F22 | F23
  | F24 | F25 | F26 | F27 | F28 | F29 | F30 | F31
deriving DecidableEq

inductive Csr where
  | Ie | Mcounteren | Menvcfg | Mideleg | Medeleg | Mhartid
  | Status | Epc | Scratch | Tval | Cause | Tvec | Satp | Fcsr
  | Other (addr : Nat) (name : String)
deriving DecidableEq

inductive RtStateValue where
  | RtFlags
  | InterruptedTrapFrameAddr
deriving DecidableEq

inductive TpBlockMember where
  | CurrentModeStack
  | InterruptedModeStack
  | InterruptedModeTp
  | RustEntrypoint
  | BootId
  | HartId
  | CurrContext
  | ReturnAddr
  | RtFlags
  | TrapCtx
deriving DecidableEq

/-- The first-match index scan used by `TpBlock::member_idx`,
`TrapFrame::gr_idx`, `TrapFrame::csr_idx` and `TrapFrame::rt_state_idx`: walk
the list and return the index of the first element equal to the key; the
`unreachable!()` on a missing key is `none`. -/
def first_idx {α : Type} [DecidableEq α] : List α → α → Option Nat
  | [], _ => none
  | x :: xs, a => if x = a then some 0 else (first_idx xs a).map (· + 1)

structure TpBlock where
  members : List TpBlockMember

def TpBlock.member_idx (tp : TpBlock) (ty : TpBlockMember) : Option Nat :=
  first_idx tp.members ty

def TpBlock.reg_count (tp : TpBlock) : Nat :=
  tp.members.length

/-- The byte offset of a thread-pointer-block member: index times the register
width, mirroring the `RtConfig::*_offset` methods
(`self.tp_block.…_idx() * self.xlen_bytes()`). -/
def TpBlock.member_offset (tp : TpBlock) (xlen_bytes : Nat)
    (ty : TpBlockMember) : Option Nat :=
  (tp.member_idx ty).map (· * xlen_bytes)

def TpBlock.get_default : TpBlock :=
  ⟨[.CurrentModeStack, .InterruptedModeStack, .InterruptedModeTp,
    .RustEntrypoint, .BootId, .HartId, .CurrContext, .ReturnAddr, .RtFlags,
    .TrapCtx]⟩

structure TrapFrame where
  general_regs : List GeneralRegister
  floating_point_registers : List FloatingPointRegister
  csrs : List Csr
  rt_state_values : List RtStateValue

def TrapFrame.element_count (tf : TrapFrame) : Nat :=
  tf.general_regs.length + tf.floating_point_registers.length +
    tf.csrs.length + tf.rt_state_values.length

/-- General registers are stashed at the beginning of the trap frame. -/
def TrapFrame.gr_start_idx (_tf : TrapFrame) : Nat :=
  0

/-- Floating point registers are stashed after the general purpose registers. -/
def TrapFrame.fr_start_idx (tf : TrapFrame) : Nat :=
  tf.general_regs.length

/-- CSRs are placed after general regs and floating point regs. -/
def TrapFrame.csr_start_idx (tf : TrapFrame) : Nat :=
  tf.general_regs.length + tf.floating_point_registers.length

/-- Runtime-state data is placed after the CSRs. -/
def TrapFrame.rt_state_start_idx (tf : TrapFrame) : Nat :=
  tf.general_regs.length + tf.floating_point_registers.length + tf.csrs.length

def TrapFrame.gr_idx (tf : TrapFrame) (reg : GeneralRegister) : Option Nat :=
  (first_idx tf.general_regs reg).map (· + tf.gr_start_idx)

def TrapFrame.csr_idx (tf : TrapFrame) (reg : Csr) : Option Nat :=
  (first_idx tf.csrs reg).map (· + tf.csr_start_idx)

def TrapFrame.rt_state_idx (tf : TrapFrame) (val : RtStateValue) : Option Nat :=
  (first_idx tf.rt_state_values val).map (· + tf.rt_state_start_idx)

/-- Byte offset of a general register in the trap frame (index times register
width, as in `RtConfig::sp_reg_offset` etc.). -/
def TrapFrame.gr_offset (tf : TrapFrame) (xlen_bytes : Nat)
    (reg : GeneralRegister) : Option Nat :=
  (tf.gr_idx reg).map (· * xlen_bytes)

/-- Byte offset of a CSR in the trap frame. -/
def TrapFrame.csr_offset (tf : TrapFrame) (xlen_bytes : Nat) (reg : Csr) :
    Option Nat :=
  (tf.csr_idx reg).map (· * xlen_bytes)

/-- Byte offset of a runtime-state value in the trap frame. -/
def TrapFrame.rt_state_offset (tf : TrapFrame) (xlen_bytes : Nat)
    (val : RtStateValue) : Option Nat :=
  (tf.rt_state_idx val).map (· * xlen_bytes)

def TrapFrame.get_default : TrapFrame :=
  { general_regs :=
      [.Ra, .Sp, .Gp, .Tp, .T0, .T1, .T2, .S0, .S1, .A0, .A1, .A2, .A3, .A4,
       .A5, .A6, .A7, .S2, .S3, .S4, .S5, .S6, .S7, .S8, .S9, .S10, .S11,
       .T3, .T4, .T5, .T6]
    floating_point_registers := []
    csrs := [.Status, .Epc, .Tval, .Cause]
    rt_state_values := [.RtFlags, .InterruptedTrapFrameAddr] }

/-! ### `RtConfig::new` and its floating-point trap-frame extension -/

inductive EntrypointType where
  | BootHart
  | NonBootHart
  | Trap
  | CustomReset
  | StackOverflow
deriving DecidableEq

structure ThreadContext where
  members : List Unit

/-- The canonical architectural floating-point register set, in the order the
`for fr in [...]` loop of `RtConfig::new` iterates over it. -/
def canonical_fp_registers : List FloatingPointRegister :=
  [.F0, .F1, .F2, .F3, .F4, .F5, .F6, .F7, .F8, .F9, .F10, .F11, .F12, .F13,
   .F14, .F15, .F16, .F17, .F18, .F19, .F20, .F21, .F22, .F23, .F24, .F25,
   .F26, .F27, .F28, .F29, .F30, .F31]

/-- One step of the `RtConfig::new` loop body:
`if !trap_frame.floating_point_registers.contains(&fr) { push(fr) }`
(`Vec::contains` is decidable membership here). -/
def push_missing {α : Type} [DecidableEq α] (acc : List α) (fr : α) : List α :=
  if fr ∈ acc then acc else acc ++ [fr]

/-- The trap-frame mutation performed by `RtConfig::new` when
`floating_point_support` is set: push every canonical FP register that is not
already present, then push `Csr::Fcsr` into the CSR list if missing. -/
def extend_trap_frame_for_fp (tf : TrapFrame) : TrapFrame :=
  { tf with
    floating_point_registers :=
      canonical_fp_registers.foldl push_missing tf.floating_point_registers
    csrs := push_missing tf.csrs Csr.Fcsr }

structure RtConfig where
  entrypoints : List (EntrypointType × String)
  trap_frame : TrapFrame
  tp_block : TpBlock
  thread_ctx : ThreadContext
  target_config : TargetConfig
  skip_bss_clearing : Bool
  stack_overflow_detection : Bool
  supports_atomic_extension : Bool
  floating_point_support : Bool
  sfence_on_trapframe_restore_feature : Bool

/-- `RtConfig::new`: builds the aggregate and, when floating-point support is
enabled, applies the trap-frame extension. -/
def RtConfig.new (entrypoints : List (EntrypointType × String))
    (trap_frame : TrapFrame) (tp_block : TpBlock) (thread_ctx : ThreadContext)
    (target_config : TargetConfig) (skip_bss_clearing : Bool)
    (stack_overflow_detection : Bool) (supports_atomic_extension : Bool)
    (floating_point_support : Bool)
    (sfence_on_trapframe_restore_feature : Bool) : RtConfig :=
  { entrypoints := entrypoints
    trap_frame :=
      if floating_point_support then extend_trap_frame_for_fp trap_frame
      else trap_frame
    tp_block := tp_block
    thread_ctx := thread_ctx
    target_config := target_config
    skip_bss_clearing := skip_bss_clearing
    stack_overflow_detection := stack_overflow_detection
    supports_atomic_extension := supports_atomic_extension
    floating_point_support := floating_point_support
    sfence_on_trapframe_restore_feature := sfence_on_trapframe_restore_feature }

def RtConfig.is_skip_bss_clearing (c : RtConfig) : Bool :=
  c.skip_bss_clearing

def RtConfig.is_multi_hart (c : RtConfig) : Bool :=
  c.target_config.is_multi_hart

def RtConfig.hart_stack_size (c : RtConfig) : Nat :=
  c.target_config.per_hart_stack_size

def RtConfig.max_hart_count (c : RtConfig) : Nat :=
  c.target_config.max_hart_count

def RtConfig.xlen_bytes (c : RtConfig) : Int :=
  c.target_config.xlen_bytes

/-! ## Assembly builder (`AsmBuilder` in `src/rt.rs`)

The embedded `AsmSentence` type contains the variants emitted by the boot/BSS
routines modelled in this file. -/

def SENTRY_VALUE_RV64 : Nat := 0x2d5952544e45532d

def SENTRY_VALUE_RV32 : Nat := 0x4e45532d

inductive AsmSentence where
  | La (rd : GeneralRegister) (symbol : String)
  | Li (rd : GeneralRegister) (imm : Nat)
  | Bgeu (rs1 rs2 : GeneralRegister) (label : String)
  | Bltu (rs1 rs2 : GeneralRegister) (label : String)
  | Beqz (rs : GeneralRegister) (label : String)
  | Label (label : String)
  | Store (rs2 rs1 : GeneralRegister) (offset : Int)
  | Load (rd rs : GeneralRegister) (offset : Int)
  | Addi (rd rs : GeneralRegister) (imm : Int)
  | Xori (rd rs : GeneralRegister) (imm : Int)
  | Andi (rd rs : GeneralRegister) (imm : Int)
  | Add (rd rs1 rs2 : GeneralRegister)
  | Sub (rd rs1 rs2 : GeneralRegister)
  | Mul (rd rs1 rs2 : GeneralRegister)
  | Comment (comment : String)
deriving DecidableEq

inductive LabelType where
  | ParkHart
  | SecondaryStart
  | BootIdxVariable
  | ResetStart
  | RestoreTrapFrame
  | CreateTrapFrame
  | HandleTrap
  | ThreadPointerBlock
  | JumpToRustEntrypoint
  | BssInitDone
  | CustomResetEntryPoint
  | ProtectStack
  | GetTrapAddr
deriving DecidableEq

inductive NamedReg where
  | BootId
  | HartId
deriving DecidableEq

/-- The mutable builder state (`RefCell` fields of `AsmBuilder`), threaded
explicitly.  The two hash maps are modelled as functions. -/
structure AsmState where
  next_label : Nat
  sentences : List AsmSentence
  free_general_regs : List GeneralRegister
  label_map : LabelType → Option String
  named_regs : NamedReg → Option GeneralRegister

def AsmState.add_sentence (st : AsmState) (s : AsmSentence) : AsmState :=
  { st with sentences := st.sentences ++ [s] }

/-- `AsmBuilder::get_free_reg`: `Vec::pop` takes the most recently pushed
register; an empty pool panics. -/
def AsmState.get_free_reg (st : AsmState) :
    Option (GeneralRegister × AsmState) :=
  match st.free_general_regs.getLast? with
  | none => none
  | some r => some (r, { st with free_general_regs := st.free_general_regs.dropLast })

def AsmState.release_reg (st : AsmState) (reg : GeneralRegister) : AsmState :=
  { st with free_general_regs := st.free_general_regs ++ [reg] }

def AsmState.get_label_from_map (st : AsmState) (ty : LabelType) :
    Option String :=
  st.label_map ty

def AsmState.get_named_reg (st : AsmState) (name : NamedReg) :
    Option GeneralRegister :=
  st.named_regs name

def AsmState.get_boot_id_reg (st : AsmState) : Option GeneralRegister :=
  st.get_named_reg NamedReg.BootId

/-- `AsmBuilder::next_label`: returns the decimal rendering of the counter and
increments it. -/
def AsmState.next_label_str (st : AsmState) : String × AsmState :=
  (toString st.next_label, { st with next_label := st.next_label + 1 })

def forward_label (label : String) : String :=
  label ++ "f"

def backward_label (label : String) : String :=
  label ++ "b"

def AsmState.comment (st : AsmState) (c : String) : AsmState :=
  st.add_sentence (.Comment c)

def AsmState.la (st : AsmState) (rd : GeneralRegister) (symbol : String) :
    AsmState :=
  st.add_sentence (.La rd symbol)

def AsmState.li_unconstrained (st : AsmState) (rd : GeneralRegister)
    (imm : Nat) : AsmState :=
  st.add_sentence (.Li rd imm)

/-- The reinterpretation `imm as isize` applied by
`AsmBuilder::li_constrained` to its `usize` argument (64-bit build host). -/
def usize_as_isize (n : Nat) : Int :=
  if n < 2 ^ 63 then (n : Int) else (n : Int) - 2 ^ 64

/-- `AsmBuilder::li_constrained`: asserts
`(-2048..=2047).contains(&(imm as isize))` before emitting. -/
def AsmState.li_constrained (st : AsmState) (rd : GeneralRegister)
    (imm : Nat) : Option AsmState :=
  if -2048 ≤ usize_as_isize imm ∧ usize_as_isize imm ≤ 2047 then
    some (st.add_sentence (.Li rd imm))
  else
    none

/-- `AsmBuilder::addi`: asserts `(-2048..=2047).contains(&imm)`. -/
def AsmState.addi (st : AsmState) (rd rs : GeneralRegister) (imm : Int) :
    Option AsmState :=
  if -2048 ≤ imm ∧ imm ≤ 2047 then
    some (st.add_sentence (.Addi rd rs imm))
  else
    none

/-- `AsmBuilder::xori`: asserts `(-2048..=2047).contains(&imm)`. -/
def AsmState.xori (st : AsmState) (rd rs : GeneralRegister) (imm : Int) :
    Option AsmState :=
  if -2048 ≤ imm ∧ imm ≤ 2047 then
    some (st.add_sentence (.Xori rd rs imm))
  else
    none

/-- `AsmBuilder::andi`: asserts `(-2048..=2047).contains(&imm)`. -/
def AsmState.andi (st : AsmState) (rd rs : GeneralRegister) (imm : Int) :
    Option AsmState :=
  if -2048 ≤ imm ∧ imm ≤ 2047 then
    some (st.add_sentence (.Andi rd rs imm))
  else
    none

/-- `AsmBuilder::load`: the offset immediate is emitted without any range
check. -/
def AsmState.load (st : AsmState) (rd rs : GeneralRegister) (offset : Int) :
    AsmState :=
  st.add_sentence (.Load rd rs offset)

/-- `AsmBuilder::store`: the offset immediate is emitted without any range
check. -/
def AsmState.store (st : AsmState) (rs2 rs1 : GeneralRegister)
    (offset : Int) : AsmState :=
  st.add_sentence (.Store rs2 rs1 offset)

def AsmState.store_zero (st : AsmState) (rs1 : GeneralRegister) : AsmState :=
  st.store GeneralRegister.Zero rs1 0

def AsmState.bgeu (st : AsmState) (rs1 rs2 : GeneralRegister)
    (label : String) : AsmState :=
  st.add_sentence (.Bgeu rs1 rs2 label)

def AsmState.bltu (st : AsmState) (rs1 rs2 : GeneralRegister)
    (label : String) : AsmState :=
  st.add_sentence (.Bltu rs1 rs2 label)

def AsmState.beqz (st : AsmState) (rs : GeneralRegister) (label : String) :
    AsmState :=
  st.add_sentence (.Beqz rs label)

/-- `AsmBuilder::label` with no alignment/section arguments, as used by the
routines embedded here. -/
def AsmState.label (st : AsmState) (label : String) : AsmState :=
  st.add_sentence (.Label label)

def AsmState.add (st : AsmState) (rd rs1 rs2 : GeneralRegister) : AsmState :=
  st.add_sentence (.Add rd rs1 rs2)

def AsmState.sub (st : AsmState) (rd rs1 rs2 : GeneralRegister) : AsmState :=
  st.add_sentence (.Sub rd rs1 rs2)

/-- `AsmBuilder::mov` emits `add rd, rs, zero`. -/
def AsmState.mov (st : AsmState) (rd rs : GeneralRegister) : AsmState :=
  st.add_sentence (.Add rd rs GeneralRegister.Zero)

def AsmState.mul (st : AsmState) (rd rs1 rs2 : GeneralRegister) : AsmState :=
  st.add_sentence (.Mul rd rs1 rs2)

def stack_top_symbol : String := "_stack_top"

/-! ### Embedded emission routines -/

/-- `zero_bss` (`src/rt.rs`): nothing at all is emitted when
`skip_bss_clearing` is set; otherwise the BSS-clearing loop, followed — on
multi-hart targets — by the store of `1` into the BSS-init-done flag. -/
def zero_bss (cfg : RtConfig) (st : AsmState) : Option AsmState := do
  if cfg.is_skip_bss_clearing then
    return st
  let st := st.comment "Zero out BSS"
  let (start_reg, st) ← st.get_free_reg
  let (end_reg, st) ← st.get_free_reg
  let st := st.la start_reg SectionType.Bss.section_entry_start_symbol
  let st := st.la end_reg SectionType.Bss.section_entry_end_symbol
  let (loop_label, st) := st.next_label_str
  let (exit_label, st) := st.next_label_str
  let st := st.bgeu start_reg end_reg (forward_label exit_label)
  let st := st.label loop_label
  let st := st.store_zero start_reg
  let st ← st.addi start_reg start_reg cfg.xlen_bytes
  let st := st.bltu start_reg end_reg (backward_label loop_label)
  let st := st.label exit_label
  let st := st.release_reg start_reg
  let st := st.release_reg end_reg
  if cfg.is_multi_hart then do
    let (addr_reg, st) ← st.get_free_reg
    let (val_reg, st) ← st.get_free_reg
    let st := st.comment "Mark BSS init done"
    let bss_done ← st.get_label_from_map LabelType.BssInitDone
    let st := st.la addr_reg bss_done
    let st ← st.li_constrained val_reg 1
    let st := st.store val_reg addr_reg 0
    let st := st.release_reg addr_reg
    let st := st.release_reg val_reg
    return st
  else
    return st

/-- `wait_for_bss_init_done` (`src/rt.rs`): nothing at all is emitted when
`skip_bss_clearing` is set; otherwise the busy-wait poll loop on the
BSS-init-done flag. -/
def wait_for_bss_init_done (cfg : RtConfig) (st : AsmState) :
    Option AsmState := do
  if cfg.is_skip_bss_clearing then
    return st
  let (addr_reg, st) ← st.get_free_reg
  let (val_reg, st) ← st.get_free_reg
  let (loopback_label, st) := st.next_label_str
  let st := st.comment "Wait for BSS init done"
  let bss_done ← st.get_label_from_map LabelType.BssInitDone
  let st := st.la addr_reg bss_done
  let st := st.label loopback_label
  let st := st.load val_reg addr_reg 0
  let st := st.beqz val_reg (backward_label loopback_label)
  let st := st.release_reg addr_reg
  let st := st.release_reg val_reg
  return st

/-- `init_stack_pointer_using_boot_id` (`src/rt.rs`): `sub` is loaded with the
per-hart stack size, multiplied by the boot id, and subtracted from the
`_stack_top` symbol's address. -/
def init_stack_pointer_using_boot_id (cfg : RtConfig) (st : AsmState) :
    Option AsmState := do
  let st := st.comment "Initialize stack pointer using boot id"
  let (sub, st) ← st.get_free_reg
  let st := st.li_unconstrained sub cfg.hart_stack_size
  let boot_id ← st.get_boot_id_reg
  let st := st.mul sub sub boot_id
  let sp := GeneralRegister.Sp
  let st := st.la sp stack_top_symbol
  let st := st.sub sp sp sub
  let st := st.release_reg sub
  return st

/-- `protect_stack` (`src/rt.rs`): assumes `sp` holds the top of the current
hart's stack and stores the width-specific sentry constant at
`sp - per_hart_stack_size`. -/
def protect_stack (cfg : RtConfig) (st : AsmState) : Option AsmState := do
  let st := st.comment
    "Place a sentry value at the bottom of the current hart's stack to try to detect future stack overflows"
  let (stack_bottom, st) ← st.get_free_reg
  let st := st.mov stack_bottom GeneralRegister.Sp
  let (sub, st) ← st.get_free_reg
  let st := st.li_unconstrained sub cfg.hart_stack_size
  let st := st.sub stack_bottom stack_bottom sub
  let st := st.release_reg sub
  let (sentry_value, st) ← st.get_free_reg
  let st :=
    if cfg.target_config.hart_config.rv_xlen = RvXlen.Rv32 then
      st.li_unconstrained sentry_value SENTRY_VALUE_RV32
    else
      st.li_unconstrained sentry_value SENTRY_VALUE_RV64
  let st := st.store sentry_value stack_bottom 0
  let st := st.release_reg sentry_value
  let st := st.release_reg stack_bottom
  return st

/-! ### A small evaluator for the emitted straight-line sequences

The sequences emitted by `init_stack_pointer_using_boot_id` and
`protect_stack` are branch-free; the evaluator computes register values and the
list of memory stores they perform.  Reads of `zero` yield 0 (the hardwired
RISC-V zero register); symbols are resolved through an environment. -/

structure ExecState where
  regs : GeneralRegister → Int
  writes : List (Int × Int)

def ExecState.read_reg (e : ExecState) (r : GeneralRegister) : Int :=
  if r = GeneralRegister.Zero then 0 else e.regs r

def ExecState.write_reg (e : ExecState) (r : GeneralRegister) (v : Int) :
    ExecState :=
  { e with regs := fun x => if x = r then v else e.regs x }

def exec_step (env : String → Int) (e : ExecState) :
    AsmSentence → ExecState
  | .Li rd imm => e.write_reg rd (imm : Int)
  | .La rd symbol => e.write_reg rd (env symbol)
  | .Add rd rs1 rs2 => e.write_reg rd (e.read_reg rs1 + e.read_reg rs2)
  | .Sub rd rs1 rs2 => e.write_reg rd (e.read_reg rs1 - e.read_reg rs2)
  | .Mul rd rs1 rs2 => e.write_reg rd (e.read_reg rs1 * e.read_reg rs2)
  | .Addi rd rs imm => e.write_reg rd (e.read_reg rs + imm)
  | .Store rs2 rs1 offset =>
    { e with writes := (e.read_reg rs1 + offset, e.read_reg rs2) :: e.writes }
  | _ => e

def exec_run (env : String → Int) (e : ExecState)
    (code : List AsmSentence) : ExecState :=
  code.foldl (exec_step env) e

/-! ## Concrete scenario instances -/

/-- A 4-hart M-mode RV64 target with a shared reset vector, the hart/stack
shape of the spec's example scenarios. -/
def example_target_config (per_hart_stack_size : Nat) : TargetConfig :=
  ⟨⟨per_hart_stack_size, 0⟩, ⟨RvMode.MMode, RvXlen.Rv64, 4, true⟩, false⟩

/-- The spec's example region `R2`: base `0x80020000`, 64 KiB, NAPOT, with
sub-regions `A` (56 KiB, non-NAPOT) and `B` (8 KiB, NAPOT). -/
def R2_region : MemoryRegion :=
  ⟨"R2", 0x80020000, 0x10000, true, MemoryAttribs.rw,
   [⟨"A", 0xE000, false⟩, ⟨"B", 0x2000, true⟩]⟩

/-- A trailing region after `R2`, making `R2` non-trailing. -/
def R3_region : MemoryRegion :=
  ⟨"R3", 0x80030000, 0x10000, false, MemoryAttribs.rw, []⟩

/-- A text section mapped to `A` and a data section mapped to `B`. -/
def c1_sections : List Section :=
  [Section.new SectionType.Text 4096 "A", Section.new SectionType.Data 64 "B"]

/-- The flattening of `R2_region`: the parent window followed by `A` at the
parent's base and `B` at `0x80020000 + 0xE000`. -/
def c7_ms : List Memory :=
  [Memory.new "R2" 0x80020000 0x10000 MemoryAttribs.rw,
   Memory.new "A" 0x80020000 0xE000 MemoryAttribs.rw,
   Memory.new "B" 0x8002E000 0x2000 MemoryAttribs.rw]

/-- The section list after the NAPOT end-alignment override for `R2`: the
section targeting `B` has its end alignment forced to `R2`'s length. -/
def c10_out : List Section :=
  [Section.new SectionType.Text 4096 "A",
   { Section.new SectionType.Data 64 "B" with
     end_alignment_in_bytes := 0x10000 }]

/-- A custom section carrying one bounded subsection. -/
def c9_section_with_subs : Section :=
  (Section.new (SectionType.Custom "mydata" 64) 16 "RAM").add_subsection
    (SubSection.new ".mydata" 8 (some 32))

/-- A custom section with no subsections. -/
def c9_section_plain : Section :=
  Section.new (SectionType.Custom "scratchbuf" 64) 16 "RAM"

/-- The named-label registry populated up front by `write_boot_s_file`. -/
def boot_label_map : LabelType → Option String
  | .ResetStart => some "_start"
  | .ParkHart => some "_park_hart"
  | .SecondaryStart => some "_secondary_start"
  | .RestoreTrapFrame => some "restore_trap_frame"
  | .CreateTrapFrame => some "create_trap_frame"
  | .HandleTrap => some "handle_trap"
  | .JumpToRustEntrypoint => some "jump_to_rust"
  | .BootIdxVariable => some "boot_idx"
  | .ThreadPointerBlock => some "tp_block"
  | .BssInitDone => some "bss_init_done"
  | .ProtectStack => some "protect_stack"
  | .GetTrapAddr => some "__my_trap_frame_addr"
  | .CustomResetEntryPoint => none

/-- The named registers after `allocate_id_regs` in `write_boot_s_file`:
`Vec::pop` on the default pool `[t0..t6]` hands out `t6` (boot id) and then
`t5` (hart id). -/
def boot_named_regs : NamedReg → Option GeneralRegister
  | .BootId => some GeneralRegister.T6
  | .HartId => some GeneralRegister.T5

/-- The runtime configuration of the stack example: 4 harts sharing the reset
vector, `per_hart_stack_size` bytes of stack per hart, stack-overflow
detection on. -/
def c2_rt_config (per_hart_stack_size : Nat) : RtConfig :=
  RtConfig.new [] TrapFrame.get_default TpBlock.get_default ⟨[]⟩
    (example_target_config per_hart_stack_size) false true true false false

/-- The builder state at the point `init_stack_pointer_using_boot_id` runs on
the multi-hart boot path of `c2_rt_config`: after `init_default_free_reg_pool`
and `allocate_id_regs` the pool is `[t0..t4]`, and the get/release pairs of
`determine_boot_id`'s hart-count check (`t4` then `t3`, released in that
order) leave it as `[t0, t1, t2, t4, t3]`.  The sentence list is taken empty
so that the routine's emission is the whole list. -/
def boot_time_asm_state : AsmState :=
  ⟨1, [], [.T0, .T1, .T2, .T4, .T3], boot_label_map, boot_named_regs⟩

/-- The builder state at the point `protect_stack` runs (the `ProtectStack`
label emitted after `release_id_regs`): the pool is
`[t0, t1, t2, t3, t4, t6, t5]` and the id registers have been released. -/
def protect_time_asm_state : AsmState :=
  ⟨1, [], [.T0, .T1, .T2, .T3, .T4, .T6, .T5], boot_label_map,
   fun _ => none⟩

/-- The emissions of `init_stack_pointer_using_boot_id` followed by
`protect_stack`, each from its builder state.  In the generated stream the
code between the two (CSR setup, BSS clearing, the jump to the
`protect_stack` label) never writes `sp`, so executing the two sequences
back to back reproduces the stack-pointer dataflow of the boot path. -/
def stack_boot_code (cfg : RtConfig) : Option (List AsmSentence) := do
  let st1 ← init_stack_pointer_using_boot_id cfg boot_time_asm_state
  let st2 ← protect_stack cfg protect_time_asm_state
  some (st1.sentences ++ st2.sentences)

/-- The instruction sequence `stack_boot_code` produces for a per-hart stack
of `S` bytes (on RV64). -/
def c2_code (S : Nat) : List AsmSentence :=
  [.Comment "Initialize stack pointer using boot id",
   .Li .T3 S,
   .Mul .T3 .T3 .T6,
   .La .Sp "_stack_top",
   .Sub .Sp .Sp .T3,
   .Comment "Place a sentry value at the bottom of the current hart's stack to try to detect future stack overflows",
   .Add .T5 .Sp .Zero,
   .Li .T6 S,
   .Sub .T5 .T5 .T6,
   .Li .T6 SENTRY_VALUE_RV64,
   .Store .T6 .T5 0]

/-- Symbol environment binding `_stack_top` to `T`. -/
def stack_env (T : Int) : String → Int :=
  fun s => if s = stack_top_symbol then T else 0

/-- Execution state entering the boot stack code: the boot-id register `t6`
holds boot id `b`. -/
def c2_exec_start (b : Int) : ExecState :=
  ⟨fun r => if r = GeneralRegister.T6 then b else 0, []⟩

/-- A minimal builder state for the immediate-range theorems. -/
def c3_asm_state : AsmState :=
  ⟨1, [], [], boot_label_map, fun _ => none⟩

/-- A 4-hart configuration with `skip_bss_clearing` enabled. -/
def c4_rt_config : RtConfig :=
  RtConfig.new [] TrapFrame.get_default TpBlock.get_default ⟨[]⟩
    (example_target_config 8192) true false true false false

/-- The builder state entering the non-boot-hart path. -/
def c4_asm_state : AsmState :=
  ⟨1, [], [.T0, .T1, .T2, .T3, .T4], boot_label_map, boot_named_regs⟩

/-! ## Helper lemmas: first-match index lookup -/

theorem first_idx_get {α : Type} [DecidableEq α] :
    ∀ (l : List α), l.Nodup → ∀ (i : Nat) (h : i < l.length),
      first_idx l l[i] = some i
  | [], _, i, h => absurd h (by simp)
  | x :: xs, hnd, 0, _ => by simp [first_idx]
  | x :: xs, hnd, i + 1, h => by
    have hi : i < xs.length := Nat.lt_of_succ_lt_succ h
    have hx : x ∉ xs := (List.nodup_cons.mp hnd).1
    have hmem : xs[i] ∈ xs := List.getElem_mem hi
    have hne : x ≠ xs[i] := fun e => hx (e ▸ hmem)
    have ih := first_idx_get xs (List.nodup_cons.mp hnd).2 i hi
    simp [first_idx, hne, ih]

theorem first_idx_lt {α : Type} [DecidableEq α] :
    ∀ (l : List α) (a : α) (k : Nat), first_idx l a = some k → k < l.length
  | [], _, _, h => by simp [first_idx] at h
  | x :: xs, a, k, h => by
    by_cases hx : x = a
    · simp only [first_idx, if_pos hx, Option.some.injEq] at h
      subst h
      simp
    · rcases hfx : first_idx xs a with _ | k'
      · simp [first_idx, hx, hfx] at h
      · simp only [first_idx, if_neg hx, hfx, Option.map_some',
          Option.some.injEq] at h
        subst h
        have := first_idx_lt xs a k' hfx
        simpa using Nat.succ_lt_succ this

theorem first_idx_eq_getElem {α : Type} [DecidableEq α] :
    ∀ (l : List α) (a : α) (k : Nat), first_idx l a = some k →
      ∃ h : k < l.length, l[k] = a
  | [], _, _, h => by simp [first_idx] at h
  | x :: xs, a, k, h => by
    by_cases hx : x = a
    · simp only [first_idx, if_pos hx, Option.some.injEq] at h
      subst h
      exact ⟨by simp, hx⟩
    · rcases hfx : first_idx xs a with _ | k'
      · simp [first_idx, hx, hfx] at h
      · simp only [first_idx, if_neg hx, hfx, Option.map_some',
          Option.some.injEq] at h
        subst h
        obtain ⟨hlt, hget⟩ := first_idx_eq_getElem xs a k' hfx
        exact ⟨by simpa using Nat.succ_lt_succ hlt, by simpa using hget⟩

theorem first_idx_append_left {α : Type} [DecidableEq α] :
    ∀ (l l2 : List α) (a : α), a ∈ l →
      first_idx (l ++ l2) a = first_idx l a
  | [], _, a, h => absurd h (by simp)
  | x :: xs, l2, a, h => by
    by_cases hx : x = a
    · simp [first_idx, hx]
    · have hmem : a ∈ xs := by
        rcases List.mem_cons.mp h with h' | h'
        · exact absurd h'.symm hx
        · exact h'
      simp [first_idx, hx, first_idx_append_left xs l2 a hmem]

theorem first_idx_of_mem {α : Type} [DecidableEq α] :
    ∀ (l : List α) (a : α), a ∈ l → ∃ k, first_idx l a = some k
  | [], a, h => absurd h (by simp)
  | x :: xs, a, h => by
    by_cases hx : x = a
    · exact ⟨0, by simp [first_idx, hx]⟩
    · have hmem : a ∈ xs := by
        rcases List.mem_cons.mp h with h' | h'
        · exact absurd h'.symm hx
        · exact h'
      obtain ⟨k, hk⟩ := first_idx_of_mem xs a hmem
      exact ⟨k + 1, by simp [first_idx, hx, hk]⟩

theorem first_idx_injective {α : Type} [DecidableEq α] (l : List α) (x y : α)
    (hxy : x ≠ y) (k : Nat) (hx : first_idx l x = some k)
    (hy : first_idx l y = some k) : False := by
  obtain ⟨h1, e1⟩ := first_idx_eq_getElem l x k hx
  obtain ⟨h2, e2⟩ := first_idx_eq_getElem l y k hy
  exact hxy (e1 ▸ e2 ▸ rfl)

/-! ## Helper lemmas: the floating-point extension fold -/

theorem foldl_push_missing {α : Type} [DecidableEq α] :
    ∀ (regs acc : List α), regs.Nodup →
      regs.foldl push_missing acc =
        acc ++ regs.filter (fun x => decide (x ∉ acc))
  | [], acc, _ => by simp
  | r :: rs, acc, h => by
    have hr : r ∉ rs := (List.nodup_cons.mp h).1
    have hnd : rs.Nodup := (List.nodup_cons.mp h).2
    by_cases hmem : r ∈ acc
    · rw [List.foldl_cons, show push_missing acc r = acc from if_pos hmem,
        foldl_push_missing rs acc hnd, List.filter_cons]
      simp [hmem]
    · rw [List.foldl_cons,
        show push_missing acc r = acc ++ [r] from if_neg hmem,
        foldl_push_missing rs (acc ++ [r]) hnd, List.filter_cons]
      have hfilter : rs.filter (fun x => decide (x ∉ acc ++ [r])) =
          rs.filter (fun x => decide (x ∉ acc)) := by
        apply List.filter_congr
        intro x hx
        have hxr : x ≠ r := fun e => hr (e ▸ hx)
        simp [hxr]
      rw [hfilter]
      simp [hmem]

set_option maxHeartbeats 1000000 in
theorem mem_canonical_fp (x : FloatingPointRegister) :
    x ∈ canonical_fp_registers := by
  cases x <;> decide

set_option maxHeartbeats 1000000 in
theorem canonical_fp_nodup : canonical_fp_registers.Nodup := by
  decide

theorem mem_push_missing {α : Type} [DecidableEq α] (acc : List α) (fr x : α)
    (h : x ∈ acc) : x ∈ push_missing acc fr := by
  unfold push_missing
  by_cases hmem : fr ∈ acc <;> simp [hmem, h]

theorem self_mem_push_missing {α : Type} [DecidableEq α] (acc : List α)
    (fr : α) : fr ∈ push_missing acc fr := by
  unfold push_missing
  by_cases hmem : fr ∈ acc <;> simp [hmem]

theorem push_missing_of_mem {α : Type} [DecidableEq α] (acc : List α) (fr : α)
    (h : fr ∈ acc) : push_missing acc fr = acc :=
  if_pos h

theorem extend_fp_fps (tf : TrapFrame) :
    (extend_trap_frame_for_fp tf).floating_point_registers =
      canonical_fp_registers.foldl push_missing tf.floating_point_registers := by
  simp only [extend_trap_frame_for_fp]

theorem extend_fp_csrs (tf : TrapFrame) :
    (extend_trap_frame_for_fp tf).csrs = push_missing tf.csrs Csr.Fcsr := by
  simp only [extend_trap_frame_for_fp]

theorem extend_fp_grs (tf : TrapFrame) :
    (extend_trap_frame_for_fp tf).general_regs = tf.general_regs := by
  simp only [extend_trap_frame_for_fp]

theorem extend_fp_rts (tf : TrapFrame) :
    (extend_trap_frame_for_fp tf).rt_state_values = tf.rt_state_values := by
  simp only [extend_trap_frame_for_fp]

theorem extend_fp_eq (tf : TrapFrame) :
    (extend_trap_frame_for_fp tf).floating_point_registers =
      tf.floating_point_registers ++
        canonical_fp_registers.filter
          (fun x => decide (x ∉ tf.floating_point_registers)) := by
  rw [extend_fp_fps]
  exact foldl_push_missing canonical_fp_registers tf.floating_point_registers
    canonical_fp_nodup

theorem mem_foldl_push_missing (acc : List FloatingPointRegister)
    (x : FloatingPointRegister) :
    x ∈ canonical_fp_registers.foldl push_missing acc := by
  rw [foldl_push_missing canonical_fp_registers acc canonical_fp_nodup]
  by_cases hx : x ∈ acc
  · exact List.mem_append_left _ hx
  · refine List.mem_append_right _ ?_
    rw [List.mem_filter]
    exact ⟨mem_canonical_fp x, by simpa using hx⟩

theorem mem_extend_fp (tf : TrapFrame) (x : FloatingPointRegister) :
    x ∈ (extend_trap_frame_for_fp tf).floating_point_registers := by
  rw [extend_fp_fps]
  exact mem_foldl_push_missing tf.floating_point_registers x

theorem extend_fp_nodup (tf : TrapFrame)
    (h : tf.floating_point_registers.Nodup) :
    (extend_trap_frame_for_fp tf).floating_point_registers.Nodup := by
  rw [extend_fp_eq]
  rw [List.nodup_append]
  refine ⟨h, canonical_fp_nodup.filter _, ?_⟩
  intro x hx hx2
  rw [List.mem_filter] at hx2
  have := hx2.2
  simp at this
  exact this hx

theorem extend_fp_idem (tf : TrapFrame) :
    extend_trap_frame_for_fp (extend_trap_frame_for_fp tf) =
      extend_trap_frame_for_fp tf := by
  have hfp : canonical_fp_registers.foldl push_missing
      (canonical_fp_registers.foldl push_missing tf.floating_point_registers) =
      canonical_fp_registers.foldl push_missing tf.floating_point_registers := by
    rw [foldl_push_missing canonical_fp_registers _ canonical_fp_nodup]
    have hnil : (canonical_fp_registers.filter (fun x =>
        decide (x ∉ canonical_fp_registers.foldl push_missing
          tf.floating_point_registers))) = [] := by
      rw [List.filter_eq_nil_iff]
      intro a _
      simpa using mem_foldl_push_missing tf.floating_point_registers a
    rw [hnil]
    simp
  have hcsr : push_missing (push_missing tf.csrs Csr.Fcsr) Csr.Fcsr =
      push_missing tf.csrs Csr.Fcsr :=
    push_missing_of_mem _ _ (self_mem_push_missing _ _)
  obtain ⟨g, f, c, r⟩ := tf
  simp only [extend_trap_frame_for_fp] at hfp hcsr ⊢
  simp only [TrapFrame.mk.injEq]
  exact ⟨trivial, hfp, hcsr, trivial⟩

/-! ## Helper lemmas: the `n & (n - 1) == 0` power-of-two test -/

theorem testBit_of_between_pows {n k : Nat} (h1 : 2 ^ k ≤ n)
    (h2 : n < 2 ^ (k + 1)) : n.testBit k = true := by
  rw [Nat.testBit_to_div_mod]
  have hpos : 0 < 2 ^ k := Nat.pos_pow_of_pos k (by norm_num)
  have hdiv1 : 1 ≤ n / 2 ^ k := (Nat.le_div_iff_mul_le hpos).mpr (by omega)
  have hdiv2 : n / 2 ^ k < 2 := by
    rw [Nat.div_lt_iff_lt_mul hpos]
    calc n < 2 ^ (k + 1) := h2
    _ = 2 * 2 ^ k := by ring
  have : n / 2 ^ k = 1 := by omega
  simp [this]

theorem is_power_of_2_iff (n : Nat) (hn : 0 < n) :
    is_power_of_2 n = true ↔ ∃ k, n = 2 ^ k := by
  constructor
  · intro h
    by_contra hno
    push_neg at hno
    set k := Nat.log 2 n with hk
    have h1 : 2 ^ k ≤ n := Nat.pow_log_le_self 2 hn.ne'
    have h2 : n < 2 ^ (k + 1) := Nat.lt_pow_succ_log_self (by norm_num) n
    have hne : n ≠ 2 ^ k := hno k
    have hgt : 2 ^ k + 1 ≤ n := by omega
    have hb1 : n.testBit k = true := testBit_of_between_pows h1 h2
    have hb2 : (n - 1).testBit k = true := by
      refine testBit_of_between_pows (by omega) (by omega)
    have hz : n &&& (n - 1) = 0 := by
      have := of_decide_eq_true (by simpa [is_power_of_2] using h)
      exact this
    have : (n &&& (n - 1)).testBit k = true := by
      rw [Nat.testBit_land, hb1, hb2]
      rfl
    rw [hz, Nat.zero_testBit] at this
    exact Bool.false_ne_true this
  · rintro ⟨k, rfl⟩
    have : (2 : Nat) ^ k &&& (2 ^ k - 1) = 0 := by
      rw [Nat.and_pow_two_sub_one_eq_mod]
      exact Nat.mod_self _
    simp [is_power_of_2, this]

/-- `check_napot` succeeds exactly when the length is a (positive) power of two
and the base is aligned to it. -/
theorem check_napot_iff (base length : Nat) :
    check_napot base length = true ↔
      (∃ k, length = 2 ^ k) ∧ base % length = 0 := by
  constructor
  · intro h
    simp only [check_napot, Bool.and_eq_true, bne_iff_ne, ne_eq] at h
    obtain ⟨hne, hpow, halign⟩ := h
    have hpos : 0 < length := Nat.pos_of_ne_zero hne
    refine ⟨(is_power_of_2_iff length hpos).mp hpow, ?_⟩
    simpa [is_aligned] using halign
  · rintro ⟨⟨k, rfl⟩, halign⟩
    have hpos : 0 < (2 : Nat) ^ k := Nat.pos_pow_of_pos k (by norm_num)
    simp only [check_napot, Bool.and_eq_true, bne_iff_ne, ne_eq]
    exact ⟨hpos.ne', (is_power_of_2_iff _ hpos).mpr ⟨k, rfl⟩,
      by simpa [is_aligned] using halign⟩

/-! ## Helper lemmas: sub-region flattening -/

/-- The base address of the `i`-th sub-region: the running base plus the sum of
the lengths of all preceding sub-regions. -/
def sub_region_prefix_len (subs : List SubRegion) (i : Nat) : Nat :=
  ((subs.take i).map SubRegion.length).sum

theorem flatten_sub_regions_spec (region : MemoryRegion) :
    ∀ (subs : List SubRegion) (base : Nat) (ms : List Memory),
      flatten_sub_regions region subs base = some ms →
      ms.length = subs.length ∧
      ∀ (i : Nat) (h : i < subs.length),
        ms[i]? = some (Memory.new (subs[i]).name
            (base + sub_region_prefix_len subs i) (subs[i]).length
            region.attribs) ∧
        base + sub_region_prefix_len subs i + (subs[i]).length ≤
          region.endAddr ∧
        ((subs[i]).napot = true → region.napot = true ∧
          check_napot (base + sub_region_prefix_len subs i)
            (subs[i]).length = true)
  | [], base, ms => by
    intro h
    simp only [flatten_sub_regions, Option.some.injEq] at h
    subst h
    exact ⟨rfl, fun i hi => absurd hi (by simp)⟩
  | sub_region :: rest, base, ms => by
    intro h
    simp only [flatten_sub_regions] at h
    by_cases h1 : sub_region.napot && !region.napot
    · simp [h1] at h
    by_cases h2 : sub_region.napot && !check_napot base sub_region.length
    · simp [h1, h2] at h
    by_cases h3 : !(sub_region.length + base ≤ region.endAddr)
    · simp [h1, h2, h3] at h
    simp only [h1, h2, h3, if_false] at h
    rcases hflat : flatten_sub_regions region rest (base + sub_region.length)
      with _ | ms'
    · rw [hflat] at h
      simp at h
    rw [hflat] at h
    simp at h
    subst h
    obtain ⟨hlen, hspec⟩ :=
      flatten_sub_regions_spec region rest (base + sub_region.length) ms' hflat
    constructor
    · simpa using hlen
    · intro i hi
      match i with
      | 0 =>
        simp only [List.getElem_cons_zero, sub_region_prefix_len,
          List.take_zero, List.map_nil, List.sum_nil, Nat.add_zero]
        refine ⟨by simp, ?_, ?_⟩
        · have h3' : sub_region.length + base ≤ region.endAddr := by
            simpa using h3
          omega
        · intro hnap
          constructor
          · by_contra hreg
            exact h1 (by simp [hnap, hreg])
          · by_contra hchk
            exact h2 (by simp [hnap, hchk])
      | i + 1 =>
        have hi' : i < rest.length := by simpa using Nat.lt_of_succ_lt_succ hi
        obtain ⟨hget, hbound, hnap⟩ := hspec i hi'
        have hpre : sub_region_prefix_len (sub_region :: rest) (i + 1) =
            sub_region.length + sub_region_prefix_len rest i := by
          simp [sub_region_prefix_len, List.take_succ_cons]
        refine ⟨?_, ?_, ?_⟩
        · simpa [hpre, Nat.add_assoc] using hget
        · have := hbound
          simp only [hpre]
          simpa [Nat.add_assoc] using this
        · intro hn
          obtain ⟨hr, hc⟩ := hnap (by simpa using hn)
          refine ⟨hr, ?_⟩
          simp only [hpre]
          simpa [Nat.add_assoc] using hc

theorem from_memory_region_some (region : MemoryRegion) (ms : List Memory)
    (h : Memory.from_memory_region region = some ms) :
    ∃ ms', flatten_sub_regions region region.sub_regions region.base =
        some ms' ∧
      ms = Memory.new region.name region.base region.length region.attribs ::
        ms' ∧
      (region.napot = true → check_napot region.base region.length = true) := by
  simp only [Memory.from_memory_region] at h
  cases hg : region.napot && !check_napot region.base region.length with
  | true =>
    rw [hg] at h
    simp at h
  | false =>
    rw [hg] at h
    rcases hflat : flatten_sub_regions region region.sub_regions region.base
      with _ | ms'
    · rw [hflat] at h
      simp at h
    · rw [hflat] at h
      simp at h
      refine ⟨ms', rfl, h.symm, ?_⟩
      intro hnap
      rw [hnap] at hg
      simpa using hg

/-- When construction succeeds, the total length of the sub-regions fits into
the parent region. -/
theorem sub_regions_total_le (region : MemoryRegion) (ms : List Memory)
    (h : Memory.from_memory_region region = some ms) :
    (region.sub_regions.map SubRegion.length).sum ≤ region.length := by
  obtain ⟨ms', hflat, _, _⟩ := from_memory_region_some region ms h
  rcases hsub : region.sub_regions with _ | ⟨s, rest⟩
  · simp [hsub]
  · rw [hsub] at hflat
    obtain ⟨_, hspec⟩ := flatten_sub_regions_spec region _ _ _ hflat
    set subs := s :: rest with hsubs
    have hn : 0 < subs.length := by simp [hsubs]
    obtain ⟨_, hbound, _⟩ := hspec (subs.length - 1) (by omega)
    have hsum : sub_region_prefix_len subs (subs.length - 1) +
        (subs[subs.length - 1]).length =
        (subs.map SubRegion.length).sum := by
      have hlen : (subs.map SubRegion.length).length = subs.length := by
        simp
      have := List.sum_take_succ (subs.map SubRegion.length)
        (subs.length - 1) (by omega)
      have htake : (subs.map SubRegion.length).take (subs.length - 1 + 1) =
          subs.map SubRegion.length := by
        apply List.take_of_length_le
        omega
      rw [htake] at this
      rw [this, sub_region_prefix_len, List.map_take]
      congr 1
      simp
    rw [← hsum]
    have : region.endAddr = region.base + region.length := rfl
    omega

/-! ## Helper lemmas: the end-alignment override scan -/

theorem update_last_section_none (region_name : String) (length : Nat) :
    ∀ (sections : List Section),
      update_last_section sections region_name length = none →
      ∀ s ∈ sections, s.target_memory ≠ region_name
  | [], _, s, hs => absurd hs (by simp)
  | sec :: rest, h, s, hs => by
    simp only [update_last_section] at h
    rcases hrest : update_last_section rest region_name length with _ | rest'
    · rw [hrest] at h
      by_cases hm : sec.target_memory = region_name
      · simp [hm] at h
      · rcases List.mem_cons.mp hs with rfl | hs'
        · exact hm
        · exact update_last_section_none region_name length rest hrest s hs'
    · rw [hrest] at h
      simp at h

theorem update_last_section_spec (region_name : String) (length : Nat) :
    ∀ (sections out : List Section),
      update_last_section sections region_name length = some out →
      ∃ i, ∃ h : i < sections.length,
        (sections[i]).target_memory = region_name ∧
        (∀ j, ∀ hj : j < sections.length, i < j →
          (sections[j]).target_memory ≠ region_name) ∧
        out = sections.set i
          { sections[i] with end_alignment_in_bytes := length }
  | [], out, h => by simp [update_last_section] at h
  | sec :: rest, out, h => by
    simp only [update_last_section] at h
    rcases hrest : update_last_section rest region_name length with _ | rest'
    · rw [hrest] at h
      by_cases hm : sec.target_memory = region_name
      · simp only [hm, if_true, Option.some.injEq] at h
        subst h
        refine ⟨0, by simp, by simp only [List.getElem_cons_zero]; exact hm,
          ?_, by simp [hm]⟩
        intro j hj hj0
        match j with
        | j + 1 =>
          have hj' : j < rest.length := by simpa using Nat.lt_of_succ_lt_succ hj
          simpa using update_last_section_none region_name length rest hrest
            rest[j] (List.getElem_mem hj')
      · simp [hm] at h
    · rw [hrest] at h
      simp only [Option.some.injEq] at h
      subst h
      obtain ⟨i, hi, hmatch, hafter, hout⟩ :=
        update_last_section_spec region_name length rest rest' hrest
      refine ⟨i + 1, by simpa using Nat.succ_lt_succ hi, by simpa using hmatch,
        ?_, ?_⟩
      · intro j hj hij
        match j with
        | j + 1 =>
          have hj' : j < rest.length := by simpa using Nat.lt_of_succ_lt_succ hj
          simpa using hafter j hj' (Nat.lt_of_succ_lt_succ hij)
      · rw [hout]
        simp

/-! ## C1: the NAPOT end-alignment override on the example scenario -/

/-- C1 counterexample: for region `R2` (base `0x80020000`, 64 KiB, NAPOT,
sub-regions `A`/`B`) followed by `R3`, `LinkerConfig::new` succeeds but does
NOT set the end alignment of the section targeting `B` to 8 KiB
(`0x2000`), contradicting the claim. -/
theorem c1_counterexample :
    ((LinkerConfig.new [R2_region, R3_region] c1_sections
        (StackLocation.InBss StackAlignment.Default)
        (example_target_config 8192)).map
      (fun lc => lc.sections.map
        (fun s => (s.target_memory, s.end_alignment_in_bytes)))) ≠
      some [("A", 4096), ("B", 0x2000)] ∧
    ((LinkerConfig.new [R2_region, R3_region] c1_sections
        (StackLocation.InBss StackAlignment.Default)
        (example_target_config 8192)).map
      (fun lc => lc.sections.map
        (fun s => (s.target_memory, s.end_alignment_in_bytes)))) ≠ none := by
  constructor <;> decide

/-- C1 (amended): in the example scenario (`R2` at `0x80020000`, 64 KiB,
NAPOT, sub-regions `A` 56 KiB non-NAPOT and `B` 8 KiB NAPOT, with `R2` not the
last region), `LinkerConfig` construction raises the end alignment of the
section whose target memory is `B` to 64 KiB — the parent region's length
(`section.end_alignment_in_bytes = region.length` in the source), not the
sub-region's 8 KiB. -/
theorem c1_theorem :
    ((LinkerConfig.new [R2_region, R3_region] c1_sections
        (StackLocation.InBss StackAlignment.Default)
        (example_target_config 8192)).map
      (fun lc => lc.sections.map
        (fun s => (s.target_memory, s.end_alignment_in_bytes)))) =
      some [("A", 4096), ("B", 0x10000)] := by
  decide

/-! ## C10: every section starts with equal alignments, and the override is
a one-field, one-section frame update -/

/-- C10: every `Section` is constructed with its end alignment equal to its
start alignment, and a successful end-alignment override rewrites exactly the
last-declared section whose target memory matches the region name: the result
is `sections.set i` of a copy of that section differing only in
`end_alignment_in_bytes`, every section after index `i` fails the name match,
and all other entries are untouched. -/
theorem c10_theorem :
    (∀ (ty : SectionType) (alignment : Nat) (target : String),
       (Section.new ty alignment target).end_alignment_in_bytes =
         (Section.new ty alignment target).start_alignment_in_bytes) ∧
    (∀ (sections : List Section) (region_name : String) (length : Nat)
       (out : List Section),
       update_last_section sections region_name length = some out →
       ∃ i, ∃ h : i < sections.length,
         (sections[i]).target_memory = region_name ∧
         (∀ j, ∀ hj : j < sections.length, i < j →
           (sections[j]).target_memory ≠ region_name) ∧
         out = sections.set i
           { sections[i] with end_alignment_in_bytes := length }) :=
  ⟨fun _ _ _ => rfl,
   fun sections region_name length out h =>
     update_last_section_spec region_name length sections out h⟩

/-- C10 witness: the override instance of the C1 scenario, at section index 1. -/
theorem c10_witness :
    ∃ i, ∃ h : i < c1_sections.length,
      (c1_sections[i]).target_memory = "B" ∧
      (∀ j, ∀ hj : j < c1_sections.length, i < j →
        (c1_sections[j]).target_memory ≠ "B") ∧
      c10_out = c1_sections.set i
        { c1_sections[i] with end_alignment_in_bytes := 0x10000 } :=
  c10_theorem.2 c1_sections "B" 0x10000 c10_out (by decide)

/-! ## C9: custom-section emission -/

theorem advance_not_mem_subsection_sentences (ss : SubSection) (n : Nat) :
    LinkerSentence.AdvanceLocationCounter n ∉ subsection_sentences ss := by
  unfold subsection_sentences
  rcases h : ss.max_size with _ | m <;> simp [h, input_section]

theorem advance_not_mem_add_subsection_information (s : Section) (n : Nat) :
    LinkerSentence.AdvanceLocationCounter n ∉ add_subsection_information s := by
  unfold add_subsection_information
  rw [List.mem_flatMap]
  rintro ⟨ss, _, hmem⟩
  exact advance_not_mem_subsection_sentences ss n hmem

/-- C9 counterexample: a `Custom` section of size 0 carrying a subsection
emits nothing at all — no placement block, no subsection emission — although
the claim requires the emitted block to contain the subsections. -/
theorem c9_counterexample :
    add_custom_section c9_section_with_subs 0 = [] ∧
    c9_section_with_subs.subsections ≠ [] := by
  constructor <;> decide

/-- C9 (amended): for every `Custom(name, size)` section with `size ≠ 0`, the
emitted placement reserves `size` bytes (advancing the location counter) and
is marked NOLOAD when the section has no subsections; when it has
subsections, the emitted block contains only the subsection emissions (no
location-counter reservation anywhere) and the section stays loadable.  A
`Custom` section with `size = 0` emits nothing (see the counterexample). -/
theorem c9_theorem (s : Section) (size : Nat) (hsize : size ≠ 0) :
    (s.subsections = [] →
      add_custom_section s size =
        [LinkerSentence.OutputSectionStart s.ty.section_entry_name true
           s.start_alignment_in_bytes s.load_address,
         LinkerSentence.SetToCurrent s.ty.section_entry_start_symbol,
         LinkerSentence.AdvanceLocationCounter size,
         LinkerSentence.Align s.end_alignment_in_bytes,
         LinkerSentence.SetToCurrent s.ty.section_entry_end_symbol,
         LinkerSentence.OutputSectionEnd s.target_memory]) ∧
    (s.subsections ≠ [] →
      add_custom_section s size =
        [LinkerSentence.OutputSectionStart s.ty.section_entry_name false
           s.start_alignment_in_bytes s.load_address,
         LinkerSentence.SetToCurrent s.ty.section_entry_start_symbol] ++
        add_subsection_information s ++
        [LinkerSentence.Align s.end_alignment_in_bytes,
         LinkerSentence.SetToCurrent s.ty.section_entry_end_symbol,
         LinkerSentence.OutputSectionEnd s.target_memory] ∧
      ∀ n, LinkerSentence.AdvanceLocationCounter n ∉
        add_custom_section s size) := by
  constructor
  · intro he
    simp [add_custom_section, hsize, he]
  · intro hne
    have hempty : s.subsections.isEmpty = false := by
      simpa [List.isEmpty_iff] using hne
    constructor
    · simp [add_custom_section, hsize, hempty]
    · intro n
      simp only [add_custom_section, if_neg hsize, hempty, if_false]
      intro hmem
      simp only [List.mem_append, List.mem_cons, List.not_mem_nil] at hmem
      rcases hmem with (h | h) | h
      · rcases h with h | h | h <;> simp_all
      · exact advance_not_mem_add_subsection_information s n h
      · rcases h with h | h | h <;> simp_all

/-- C9 witness: the size-64 custom section with no subsections, reserved as a
NOLOAD block. -/
theorem c9_witness :
    add_custom_section c9_section_plain 64 =
      [LinkerSentence.OutputSectionStart
         c9_section_plain.ty.section_entry_name true
         c9_section_plain.start_alignment_in_bytes
         c9_section_plain.load_address,
       LinkerSentence.SetToCurrent
         c9_section_plain.ty.section_entry_start_symbol,
       LinkerSentence.AdvanceLocationCounter 64,
       LinkerSentence.Align c9_section_plain.end_alignment_in_bytes,
       LinkerSentence.SetToCurrent
         c9_section_plain.ty.section_entry_end_symbol,
       LinkerSentence.OutputSectionEnd c9_section_plain.target_memory] :=
  (c9_theorem c9_section_plain 64 (by decide)).1 rfl

/-! ## C5: the floating-point trap-frame extension of `RtConfig::new` -/

/-- C5: constructing an `RtConfig` with floating-point support on a trap frame
with a duplicate-free floating-point list yields a trap frame whose
floating-point list is the original list with exactly the missing canonical
registers appended (append-only, order-preserving), contains every canonical
FP register, stays duplicate-free, gains `fcsr` at the end of the CSR list if
missing, leaves the other field lists untouched, and is a fixed point:
constructing again from the already-extended frame changes nothing. -/
theorem c5_theorem (eps : List (EntrypointType × String)) (tf : TrapFrame)
    (tpb : TpBlock) (tcx : ThreadContext) (tc : TargetConfig)
    (skip so atomics sfence : Bool)
    (h : tf.floating_point_registers.Nodup) :
    (RtConfig.new eps tf tpb tcx tc skip so atomics true sfence).trap_frame =
      extend_trap_frame_for_fp tf ∧
    (extend_trap_frame_for_fp tf).floating_point_registers =
      tf.floating_point_registers ++
        canonical_fp_registers.filter
          (fun x => decide (x ∉ tf.floating_point_registers)) ∧
    (∀ f : FloatingPointRegister,
      f ∈ (extend_trap_frame_for_fp tf).floating_point_registers) ∧
    (extend_trap_frame_for_fp tf).floating_point_registers.Nodup ∧
    (extend_trap_frame_for_fp tf).csrs =
      (if Csr.Fcsr ∈ tf.csrs then tf.csrs else tf.csrs ++ [Csr.Fcsr]) ∧
    Csr.Fcsr ∈ (extend_trap_frame_for_fp tf).csrs ∧
    (extend_trap_frame_for_fp tf).general_regs = tf.general_regs ∧
    (extend_trap_frame_for_fp tf).rt_state_values = tf.rt_state_values ∧
    (RtConfig.new eps (extend_trap_frame_for_fp tf) tpb tcx tc skip so
      atomics true sfence).trap_frame = extend_trap_frame_for_fp tf := by
  refine ⟨?_, extend_fp_eq tf, mem_extend_fp tf, extend_fp_nodup tf h,
    ?_, ?_, extend_fp_grs tf, extend_fp_rts tf, ?_⟩
  · simp [RtConfig.new]
  · rw [extend_fp_csrs]
    rfl
  · rw [extend_fp_csrs]
    exact self_mem_push_missing tf.csrs Csr.Fcsr
  · have : (RtConfig.new eps (extend_trap_frame_for_fp tf) tpb tcx tc skip so
        atomics true sfence).trap_frame =
        extend_trap_frame_for_fp (extend_trap_frame_for_fp tf) := by
      simp [RtConfig.new]
    rw [this, extend_fp_idem]

/-- C5 witness: the default trap frame (no FP registers, no `fcsr`). -/
theorem c5_witness :
    TrapFrame.get_default.floating_point_registers.Nodup ∧
    (∀ f : FloatingPointRegister,
      f ∈ (extend_trap_frame_for_fp
        TrapFrame.get_default).floating_point_registers) ∧
    (extend_trap_frame_for_fp TrapFrame.get_default).csrs =
      TrapFrame.get_default.csrs ++ [Csr.Fcsr] :=
  ⟨by decide,
   (c5_theorem [] TrapFrame.get_default TpBlock.get_default ⟨[]⟩
      (example_target_config 8192) false false false false (by decide)).2.2.1,
   by
     rw [(c5_theorem [] TrapFrame.get_default TpBlock.get_default ⟨[]⟩
        (example_target_config 8192) false false false false
        (by decide)).2.2.2.2.1]
     decide⟩

/-! ## C6: field offsets of the trap frame and thread-pointer block -/

/-- C6 counterexample: appending a new field (`zero`, absent from the default
frame) to the end of the general-register field list changes the byte offset
of the pre-existing CSR field `status` from 31×8 to 32×8, so appending to a
field list is not offset-stable in general. -/
theorem c6_counterexample :
    TrapFrame.get_default.csr_offset 8 Csr.Status = some 248 ∧
    TrapFrame.csr_offset
      { TrapFrame.get_default with
        general_regs := TrapFrame.get_default.general_regs ++
          [GeneralRegister.Zero] } 8 Csr.Status = some 256 ∧
    GeneralRegister.Zero ∉ TrapFrame.get_default.general_regs ∧
    (248 : Nat) ≠ 256 := by
  refine ⟨by decide, by decide, by decide, by decide⟩

/-- C6 (amended): for duplicate-free field lists, every resolved byte offset
equals the field's index in the overall layout times the register width
(general registers from 0, CSRs from `csr_start_idx`, runtime-state values
from `rt_state_start_idx`), the three index ranges are disjoint and tile the
frame contiguously, distinct `TpBlock` members resolve to distinct offsets,
and appending a new field keeps the offsets of existing fields in the same
and earlier lists unchanged — covered for an append to each of the four
trap-frame lists: to the general registers (general-register offsets stable),
to the floating-point list (general-register offsets stable), to the CSR list
(general-register and CSR offsets stable), and to the final runtime-state
list (no existing offset moves at all); appending to an interior list such as
the general registers does shift the later lists (see the counterexample). -/
theorem c6_theorem :
    (∀ (tp : TpBlock), tp.members.Nodup →
      ∀ (i : Nat) (h : i < tp.members.length) (w : Nat),
        tp.member_offset w tp.members[i] = some (i * w)) ∧
    (∀ (tp : TpBlock), tp.members.Nodup →
      ∀ x y, x ∈ tp.members → y ∈ tp.members → x ≠ y →
        tp.member_idx x ≠ tp.member_idx y) ∧
    (∀ (l : List TpBlockMember) (x y : TpBlockMember), y ∈ l →
      TpBlock.member_idx ⟨l ++ [x]⟩ y = TpBlock.member_idx ⟨l⟩ y) ∧
    (∀ (tf : TrapFrame) (w : Nat), tf.general_regs.Nodup →
      ∀ (i : Nat) (h : i < tf.general_regs.length),
        tf.gr_offset w tf.general_regs[i] = some (i * w)) ∧
    (∀ (tf : TrapFrame) (w : Nat), tf.csrs.Nodup →
      ∀ (i : Nat) (h : i < tf.csrs.length),
        tf.csr_offset w tf.csrs[i] = some ((tf.csr_start_idx + i) * w)) ∧
    (∀ (tf : TrapFrame) (w : Nat), tf.rt_state_values.Nodup →
      ∀ (i : Nat) (h : i < tf.rt_state_values.length),
        tf.rt_state_offset w tf.rt_state_values[i] =
          some ((tf.rt_state_start_idx + i) * w)) ∧
    (∀ (tf : TrapFrame) (r : GeneralRegister) (a : Nat),
      tf.gr_idx r = some a → a < tf.fr_start_idx) ∧
    (∀ (tf : TrapFrame) (c : Csr) (b : Nat), tf.csr_idx c = some b →
      tf.csr_start_idx ≤ b ∧ b < tf.rt_state_start_idx) ∧
    (∀ (tf : TrapFrame) (v : RtStateValue) (d : Nat),
      tf.rt_state_idx v = some d →
      tf.rt_state_start_idx ≤ d ∧ d < tf.element_count) ∧
    (∀ (tf : TrapFrame) (v : RtStateValue) (r : GeneralRegister) (c : Csr)
       (y : RtStateValue), y ∈ tf.rt_state_values →
      TrapFrame.gr_idx
        { tf with rt_state_values := tf.rt_state_values ++ [v] } r =
        tf.gr_idx r ∧
      TrapFrame.csr_idx
        { tf with rt_state_values := tf.rt_state_values ++ [v] } c =
        tf.csr_idx c ∧
      TrapFrame.rt_state_idx
        { tf with rt_state_values := tf.rt_state_values ++ [v] } y =
        tf.rt_state_idx y) ∧
    (∀ (tf : TrapFrame) (g : GeneralRegister) (r : GeneralRegister),
      r ∈ tf.general_regs →
      TrapFrame.gr_idx { tf with general_regs := tf.general_regs ++ [g] } r =
        tf.gr_idx r) ∧
    (∀ (tf : TrapFrame) (c0 : Csr) (r : GeneralRegister) (c : Csr),
      c ∈ tf.csrs →
      TrapFrame.gr_idx { tf with csrs := tf.csrs ++ [c0] } r = tf.gr_idx r ∧
      TrapFrame.csr_idx { tf with csrs := tf.csrs ++ [c0] } c =
        tf.csr_idx c) ∧
    (∀ (tf : TrapFrame) (f : FloatingPointRegister) (r : GeneralRegister),
      TrapFrame.gr_idx
        { tf with floating_point_registers :=
            tf.floating_point_registers ++ [f] } r = tf.gr_idx r) := by
  refine ⟨?_, ?_, ?_, ?_, ?_, ?_, ?_, ?_, ?_, ?_, ?_, ?_, ?_⟩
  · intro tp hnd i h w
    simp [TpBlock.member_offset, TpBlock.member_idx, first_idx_get _ hnd i h]
  · intro tp hnd x y hxmem hymem hxy heq
    obtain ⟨k, hk⟩ := first_idx_of_mem tp.members x hxmem
    obtain ⟨k', hk'⟩ := first_idx_of_mem tp.members y hymem
    have h1 : tp.member_idx x = some k := hk
    have h2 : tp.member_idx y = some k' := hk'
    rw [h1, h2] at heq
    cases heq
    exact first_idx_injective tp.members x y hxy k hk hk'
  · intro l x y hy
    simp [TpBlock.member_idx, first_idx_append_left l [x] y hy]
  · intro tf w hnd i h
    simp [TrapFrame.gr_offset, TrapFrame.gr_idx, TrapFrame.gr_start_idx,
      first_idx_get _ hnd i h]
  · intro tf w hnd i h
    simp [TrapFrame.csr_offset, TrapFrame.csr_idx,
      first_idx_get _ hnd i h, Nat.add_comm]
  · intro tf w hnd i h
    simp [TrapFrame.rt_state_offset, TrapFrame.rt_state_idx,
      first_idx_get _ hnd i h, Nat.add_comm]
  · intro tf r a h
    simp only [TrapFrame.gr_idx, Option.map_eq_some'] at h
    obtain ⟨k, hk, rfl⟩ := h
    have := first_idx_lt _ _ _ hk
    simp only [TrapFrame.gr_start_idx, TrapFrame.fr_start_idx]
    omega
  · intro tf c b h
    simp only [TrapFrame.csr_idx, Option.map_eq_some'] at h
    obtain ⟨k, hk, rfl⟩ := h
    have := first_idx_lt _ _ _ hk
    simp only [TrapFrame.csr_start_idx, TrapFrame.rt_state_start_idx]
    omega
  · intro tf v d h
    simp only [TrapFrame.rt_state_idx, Option.map_eq_some'] at h
    obtain ⟨k, hk, rfl⟩ := h
    have := first_idx_lt _ _ _ hk
    simp only [TrapFrame.rt_state_start_idx, TrapFrame.element_count]
    omega
  · intro tf v r c y hy
    refine ⟨?_, ?_, ?_⟩
    · simp [TrapFrame.gr_idx, TrapFrame.gr_start_idx]
    · simp [TrapFrame.csr_idx, TrapFrame.csr_start_idx]
    · simp only [TrapFrame.rt_state_idx, TrapFrame.rt_state_start_idx]
      rw [first_idx_append_left _ [v] y hy]
  · intro tf g r hr
    simp only [TrapFrame.gr_idx, TrapFrame.gr_start_idx]
    rw [first_idx_append_left _ [g] r hr]
  · intro tf c0 r c hc
    constructor
    · simp [TrapFrame.gr_idx, TrapFrame.gr_start_idx]
    · simp only [TrapFrame.csr_idx, TrapFrame.csr_start_idx]
      rw [first_idx_append_left _ [c0] c hc]
  · intro tf f r
    simp [TrapFrame.gr_idx, TrapFrame.gr_start_idx]

/-- C6 witness: two distinct members of the default thread-pointer block
resolve to distinct offsets. -/
theorem c6_witness :
    TpBlock.get_default.member_idx TpBlockMember.BootId ≠
      TpBlock.get_default.member_idx TpBlockMember.HartId :=
  c6_theorem.2.1 TpBlock.get_default (by decide) TpBlockMember.BootId
    TpBlockMember.HartId (by decide) (by decide) (by decide)

/-! ## C7: sub-region flattening geometry -/

/-- C7: when `Memory::from_memory_region` succeeds, the flattened window of
the `i`-th sub-region sits at the parent's base plus the sum of the lengths of
all preceding sub-regions, has that sub-region's length, and inherits the
parent's permission attributes; the cumulative sub-region length never exceeds
the parent's length; and if any sub-region would overflow the parent's extent
the construction fails. -/
theorem c7_theorem (region : MemoryRegion) :
    (∀ ms, Memory.from_memory_region region = some ms →
      (∀ (i : Nat) (h : i < region.sub_regions.length),
        ms[i + 1]? = some (Memory.new (region.sub_regions[i]).name
          (region.base + sub_region_prefix_len region.sub_regions i)
          (region.sub_regions[i]).length region.attribs)) ∧
      (region.sub_regions.map SubRegion.length).sum ≤ region.length) ∧
    ((∃ i, ∃ h : i < region.sub_regions.length,
        region.length < sub_region_prefix_len region.sub_regions i +
          (region.sub_regions[i]).length) →
      Memory.from_memory_region region = none) := by
  constructor
  · intro ms hms
    obtain ⟨ms', hflat, rfl, _⟩ := from_memory_region_some region ms hms
    obtain ⟨hlen, hspec⟩ := flatten_sub_regions_spec region _ _ _ hflat
    constructor
    · intro i h
      obtain ⟨hget, _, _⟩ := hspec i h
      simpa using hget
    · exact sub_regions_total_le region _ hms
  · rintro ⟨i, h, hover⟩
    rcases hms : Memory.from_memory_region region with _ | ms
    · rfl
    · obtain ⟨ms', hflat, _, _⟩ := from_memory_region_some region ms hms
      obtain ⟨_, hspec⟩ := flatten_sub_regions_spec region _ _ _ hflat
      obtain ⟨_, hbound, _⟩ := hspec i h
      have : region.endAddr = region.base + region.length := rfl
      omega

/-- C7 witness: the `R2` example region flattens successfully into `c7_ms`,
and its sub-region lengths sum to the parent length. -/
theorem c7_witness :
    Memory.from_memory_region R2_region = some c7_ms ∧
    (R2_region.sub_regions.map SubRegion.length).sum ≤ R2_region.length :=
  ⟨by decide, ((c7_theorem R2_region).1 c7_ms (by decide)).2⟩

/-! ## C8: the NAPOT validity law -/

/-- C8: for a NAPOT-flagged region, flattening succeeds only if the region's
length is a power of two and its base is aligned to its length, and fails
whenever that law is violated; and a NAPOT sub-region is accepted only inside
a NAPOT parent and satisfies the same law at its own computed base (parent
base plus the preceding sub-region lengths). -/
theorem c8_theorem (region : MemoryRegion) :
    (region.napot = true → ∀ ms, Memory.from_memory_region region = some ms →
      (∃ k, region.length = 2 ^ k) ∧ region.base % region.length = 0) ∧
    (region.napot = true →
      ¬ ((∃ k, region.length = 2 ^ k) ∧ region.base % region.length = 0) →
      Memory.from_memory_region region = none) ∧
    (∀ ms, Memory.from_memory_region region = some ms →
      ∀ (i : Nat) (h : i < region.sub_regions.length),
        (region.sub_regions[i]).napot = true →
        region.napot = true ∧
        (∃ k, (region.sub_regions[i]).length = 2 ^ k) ∧
        (region.base + sub_region_prefix_len region.sub_regions i) %
          (region.sub_regions[i]).length = 0) := by
  refine ⟨?_, ?_, ?_⟩
  · intro hnap ms hms
    obtain ⟨_, _, _, hchk⟩ := from_memory_region_some region ms hms
    exact (check_napot_iff region.base region.length).mp (hchk hnap)
  · intro hnap hlaw
    rcases hms : Memory.from_memory_region region with _ | ms
    · rfl
    · obtain ⟨_, _, _, hchk⟩ := from_memory_region_some region ms hms
      exact absurd ((check_napot_iff region.base region.length).mp
        (hchk hnap)) hlaw
  · intro ms hms i h hnap
    obtain ⟨ms', hflat, _, _⟩ := from_memory_region_some region ms hms
    obtain ⟨_, hspec⟩ := flatten_sub_regions_spec region _ _ _ hflat
    obtain ⟨_, _, hsub⟩ := hspec i h
    obtain ⟨hr, hc⟩ := hsub hnap
    obtain ⟨hpow, halign⟩ := (check_napot_iff _ _).mp hc
    exact ⟨hr, hpow, halign⟩

/-- C8 witness: the NAPOT example region `R2` flattens successfully, so its
length is a power of two and its base is aligned to it. -/
theorem c8_witness :
    (∃ k, R2_region.length = 2 ^ k) ∧
      R2_region.base % R2_region.length = 0 :=
  (c8_theorem R2_region).1 rfl c7_ms (by decide)

/-! ## C2: the boot stack pointer and the stack guard word -/

/-- C2 counterexample: with 4 harts and an 8 KiB per-hart stack, the hart
with boot id 2 gets a stack pointer of `stack_top − 2×8192` (here
`0x80100000 − 16384 = 2148515840`), not `stack_top − 3×8192` as the claim
states, and the guard word is stored at `stack_top − 3×8192 = 2148507648`,
not at `stack_top − 3×8192 − 8192`. -/
theorem c2_counterexample :
    stack_boot_code (c2_rt_config 8192) = some (c2_code 8192) ∧
    (exec_run (stack_env 2148532224) (c2_exec_start 2)
      (c2_code 8192)).read_reg GeneralRegister.Sp = 2148515840 ∧
    (2148515840 : Int) ≠ 2148532224 - 3 * 8192 ∧
    (exec_run (stack_env 2148532224) (c2_exec_start 2)
      (c2_code 8192)).writes = [(2148507648, 3267733526677902125)] ∧
    (2148507648 : Int) ≠ 2148532224 - 3 * 8192 - 8192 :=
  ⟨rfl, by decide, by decide, by decide, by decide⟩

/-- C2 (amended): the generated boot code computes, for the hart with boot id
`b`, a stack pointer equal to `stack_top − b × per_hart_stack_size`
(`sub = stack_size × boot_id; sp = stack_top − sub` in
`init_stack_pointer_using_boot_id`), and `protect_stack` places the
stack-bottom guard word (the RV64 sentry constant) at
`stack_top − b × per_hart_stack_size − per_hart_stack_size`, i.e. at
`stack_top − (b + 1) × per_hart_stack_size`. -/
theorem c2_theorem (S : Nat) (b T : Int) :
    stack_boot_code (c2_rt_config S) = some (c2_code S) ∧
    (exec_run (stack_env T) (c2_exec_start b) (c2_code S)).read_reg
      GeneralRegister.Sp = T - (S : Int) * b ∧
    (exec_run (stack_env T) (c2_exec_start b) (c2_code S)).writes =
      [(T - (S : Int) * b - (S : Int), (SENTRY_VALUE_RV64 : Int))] := by
  refine ⟨rfl, ?_, ?_⟩ <;>
    simp [exec_run, c2_code, exec_step, ExecState.read_reg,
      ExecState.write_reg, c2_exec_start, stack_env, stack_top_symbol]

/-! ## C3: the signed 12-bit immediate range check -/

/-- C3 counterexample: `AsmBuilder::load` emits its small (12-bit) offset
immediate without any range check, so the out-of-range offset 4096 is
accepted and the load instruction is emitted — generation does not fail,
although the claim requires the signed 12-bit check on every small-immediate
instruction the generator emits. -/
theorem c3_counterexample :
    (c3_asm_state.load GeneralRegister.T0 GeneralRegister.Sp 4096).sentences =
      [AsmSentence.Load GeneralRegister.T0 GeneralRegister.Sp 4096] ∧
    ¬ ((-2048 : Int) ≤ 4096 ∧ (4096 : Int) ≤ 2047) :=
  ⟨rfl, by norm_num⟩

/-- C3 (amended): the constrained small-immediate emitters (`li_constrained`,
`addi`, `xori`, `andi`) enforce the signed 12-bit range −2048..2047: they
fail exactly on an out-of-range immediate (for `li_constrained`, on the
`usize` argument reinterpreted as `isize`) and never fail in range — in
particular 4096 is rejected.  The `load`/`store` offset immediates, however,
are emitted with no check at all. -/
theorem c3_theorem :
    (∀ (st : AsmState) (rd : GeneralRegister) (imm : Nat),
      (st.li_constrained rd imm).isSome = true ↔
        (-2048 ≤ usize_as_isize imm ∧ usize_as_isize imm ≤ 2047)) ∧
    (∀ (st : AsmState) (rd rs : GeneralRegister) (imm : Int),
      (st.addi rd rs imm).isSome = true ↔ (-2048 ≤ imm ∧ imm ≤ 2047)) ∧
    (∀ (st : AsmState) (rd rs : GeneralRegister) (imm : Int),
      (st.xori rd rs imm).isSome = true ↔ (-2048 ≤ imm ∧ imm ≤ 2047)) ∧
    (∀ (st : AsmState) (rd rs : GeneralRegister) (imm : Int),
      (st.andi rd rs imm).isSome = true ↔ (-2048 ≤ imm ∧ imm ≤ 2047)) ∧
    (∀ (st : AsmState) (rd : GeneralRegister),
      st.li_constrained rd 4096 = none) ∧
    (∀ (st : AsmState) (rd rs : GeneralRegister) (offset : Int),
      st.load rd rs offset = st.add_sentence (.Load rd rs offset)) ∧
    (∀ (st : AsmState) (rs2 rs1 : GeneralRegister) (offset : Int),
      st.store rs2 rs1 offset = st.add_sentence (.Store rs2 rs1 offset)) := by
  refine ⟨?_, ?_, ?_, ?_, ?_, fun _ _ _ _ => rfl, fun _ _ _ _ => rfl⟩
  · intro st rd imm
    by_cases h : (-2048 ≤ usize_as_isize imm ∧ usize_as_isize imm ≤ 2047) <;>
      simp [AsmState.li_constrained, h]
  · intro st rd rs imm
    by_cases h : (-2048 ≤ imm ∧ imm ≤ 2047) <;> simp [AsmState.addi, h]
  · intro st rd rs imm
    by_cases h : (-2048 ≤ imm ∧ imm ≤ 2047) <;> simp [AsmState.xori, h]
  · intro st rd rs imm
    by_cases h : (-2048 ≤ imm ∧ imm ≤ 2047) <;> simp [AsmState.andi, h]
  · intro st rd
    simp [AsmState.li_constrained, usize_as_isize]

/-! ## C4: `skip_bss_clearing` and the BSS-ready flag -/

/-- C4 counterexample: on a multi-hart target with `skip_bss_clearing`
enabled, `wait_for_bss_init_done` emits nothing at all (its early return
fires before the poll loop), so the generated non-boot-hart path does NOT
contain the flag poll loop, contrary to the claim that the harts poll
forever. -/
theorem c4_counterexample :
    c4_rt_config.skip_bss_clearing = true ∧
    c4_rt_config.is_multi_hart = true ∧
    wait_for_bss_init_done c4_rt_config c4_asm_state = some c4_asm_state ∧
    zero_bss c4_rt_config c4_asm_state = some c4_asm_state ∧
    c4_asm_state.sentences = [] :=
  ⟨rfl, rfl, rfl, rfl, rfl⟩

/-- C4 (amended): when `skip_bss_clearing` is enabled, the generated code
never sets the BSS-ready flag (`zero_bss` emits nothing), and the non-boot
hart path omits the poll loop entirely (`wait_for_bss_init_done` also emits
nothing), so non-boot harts proceed without waiting instead of polling
forever. -/
theorem c4_theorem (cfg : RtConfig) (st : AsmState)
    (h : cfg.skip_bss_clearing = true) :
    zero_bss cfg st = some st ∧ wait_for_bss_init_done cfg st = some st := by
  constructor
  · simp [zero_bss, RtConfig.is_skip_bss_clearing, h]
  · simp [wait_for_bss_init_done, RtConfig.is_skip_bss_clearing, h]

/-- C4 witness. -/
theorem c4_witness :
    zero_bss c4_rt_config c4_asm_state = some c4_asm_state ∧
    wait_for_bss_init_done c4_rt_config c4_asm_state = some c4_asm_state :=
  c4_theorem c4_rt_config c4_asm_state rfl

end RvGen
